import Mathlib

/-!
Verification of the DMM model-validation protocol
(`dmm/protocols/protocol_dmm.py`, class `ProtDMMValidation`).

The Python code is shallowly embedded: strings are Lean `String`s, Python
list/str primitives are modelled by explicit recursive functions on
`List Char` / `List String`, the file system touched by `DMMStep` is a pair
of directory-path and file-path association lists, and fallible Python code
(index errors, `shutil` errors) returns `Except`.
-/

set_option autoImplicit false

namespace DMMProt

/-! ## Generic list / string utilities modelling Python primitives -/

/-- Boolean test that the first list is an initial segment of the second.
Used to model both Python `str.startswith` (on characters) and ancestry of
file-system paths (on path components). -/
def isLeadOf {α : Type} [DecidableEq α] : List α → List α → Bool
  | [], _ => true
  | _ :: _, [] => false
  | a :: as, b :: bs => if a = b then isLeadOf as bs else false

/-- Boolean test that the first list occurs contiguously inside the second;
models Python's substring operator `in`. -/
def hasInfix {α : Type} [DecidableEq α] : List α → List α → Bool
  | s, [] => isLeadOf s []
  | s, b :: bs => isLeadOf s (b :: bs) || hasInfix s bs

/-- Python `s.startswith(pat)`. -/
def pyStartsWith (s pat : String) : Bool := isLeadOf pat.data s.data

/-- Python `sub in s` (substring containment). -/
def pyIn (sub s : String) : Bool := hasInfix sub.data s.data

/-- Python slice `s[a:b]` for `0 ≤ a ≤ b` (out-of-range indices clamp). -/
def pySlice (s : String) (a b : Nat) : String :=
  String.mk ((s.data.drop a).take (b - a))

/-- Python single-character indexing `s[i]`; `none` models the `IndexError`
raised when `i` is out of range. -/
def charAt (s : String) (i : Nat) : Option Char := s.data.get? i

/-- The character class stripped by Python `str.strip()`. -/
def pyIsSpace (c : Char) : Bool :=
  c == ' ' || c == '\t' || c == '\n' || c == '\r' || c == '\x0b' || c == '\x0c'

/-- Python `s.strip()`. -/
def pyStrip (s : String) : String :=
  String.mk (((s.data.dropWhile pyIsSpace).reverse.dropWhile pyIsSpace).reverse)

/-- First-match lookup in an association list; models lookup in a Python
`dict` built by the code below (keys are inserted at most once). -/
def dicGet : List (String × String) → String → Option String
  | [], _ => none
  | (a, v) :: d, k => if a = k then some v else dicGet d k

/-- Python `k in dic` membership test. -/
def dicHas (d : List (String × String)) (k : String) : Bool := (dicGet d k).isSome

/-! ## Predictor argument construction (`getDMMArgs`, lines 128-136) -/

/-- Line 131: `os.path.abspath(...) if self.af2Structure.get() else ""` —
the auxiliary AlphaFold model path, or the empty string when absent. -/
def alphafoldPathOf (af2 : Option String) : String :=
  match af2 with
  | some p => p
  | none => ""

/-- Line 134: the f-string
`f" -m {map_path} -f {fasta_path} -A {alphafold_pdb_path} -c {contour} -o {output_path} -t 10 -T 10"`.
The numeric contour level arrives already formatted as text. -/
def getDMMArgs (map_path fasta_path alphafold_pdb_path contour output_path : String) : String :=
  " -m " ++ map_path ++ " -f " ++ fasta_path ++ " -A " ++ alphafold_pdb_path ++
    " -c " ++ contour ++ " -o " ++ output_path ++ " -t 10 -T 10"

/-- The invocation form claimed by the specification for the predictor CLI:
`-m <map_path> -f <sequence_path> -A <aux|empty> -c <contour> -o <output_dir> -t 10 -T 10`,
with no leading space.  Stated from the spec's words, to be compared with
`getDMMArgs` taken from the source. -/
def specArgsForm (map_path fasta_path alphafold_pdb_path contour output_path : String) : String :=
  "-m " ++ map_path ++ " -f " ++ fasta_path ++ " -A " ++ alphafold_pdb_path ++
    " -c " ++ contour ++ " -o " ++ output_path ++ " -t 10 -T 10"

/-! ## `DMMStep` launch logic (lines 106-120) -/

/-- The launcher script name tested on line 117. -/
def launcherScript : String := "dmm_full_multithreads.sh"

/-- Line 114: `"{} {}".format(condaCmd, protocolCmd)`. -/
def envActivationCommand (condaCmd protocolCmd : String) : String :=
  condaCmd ++ " " ++ protocolCmd

/-- Line 115: `'{} && {}/dmm_full_multithreads.sh'.format(envActivationCommand, Plugin._DMMBinary)`. -/
def fullProgram (condaCmd protocolCmd dmmBinary : String) : String :=
  envActivationCommand condaCmd protocolCmd ++ " && " ++ dmmBinary ++ "/" ++ launcherScript

/-- Lines 117-118: `if 'dmm_full_multithreads.sh' not in args: args = '-p {}{}'.format(Plugin._DMMBinary, args)`. -/
def DMMStepArgs (dmmBinary args : String) : String :=
  if pyIn launcherScript args then args else "-p " ++ dmmBinary ++ args

/-- One `runJob` invocation: program text, argument text and working directory. -/
structure JobCall where
  program : String
  args : String
  cwd : String
deriving DecidableEq

/-- Line 120: `self.runJob(fullProgram, args, cwd=program_path)` with
`program_path = Plugin._DMMBinary` (line 110). -/
def DMMStepJob (condaCmd protocolCmd dmmBinary args : String) : JobCall :=
  { program := fullProgram condaCmd protocolCmd dmmBinary
    args := DMMStepArgs dmmBinary args
    cwd := dmmBinary }

/-! ## Score-file parsing (`parseDMMScores`, lines 227-238) -/

/-- Line 233: `line.startswith('ATOM') or line.startswith('HETATM')`. -/
def isRecordLine (line : String) : Bool :=
  pyStartsWith line "ATOM" || pyStartsWith line "HETATM"

/-- Line 234: `'{}:{}'.format(line[21].strip(), line[22:26].strip())`;
`none` models the `IndexError` of `line[21]` on a line of fewer than
22 characters. -/
def lineResId (line : String) : Option String :=
  (charAt line 21).map (fun c => pyStrip (String.mk [c]) ++ ":" ++ pyStrip (pySlice line 22 26))

/-- Line 236: `line[60:66].strip()`. -/
def lineScore (line : String) : String := pyStrip (pySlice line 60 66)

/-- The body of the `for line in f` loop, lines 233-237, acting on the
dictionary accumulated so far. -/
def parseLine (dic : List (String × String)) (line : String) :
    Except Unit (List (String × String)) :=
  if isRecordLine line then
    match lineResId line with
    | none => .error ()
    | some resId =>
        if dicHas dic resId then .ok dic
        else .ok (dic ++ [(resId, lineScore line)])
  else .ok dic

/-- The `for line in f` loop of lines 232-237. -/
def parseGo (dic : List (String × String)) : List String → Except Unit (List (String × String))
  | [] => .ok dic
  | l :: ls =>
    match parseLine dic l with
    | .error e => .error e
    | .ok dic2 => parseGo dic2 ls

/-- The function `parseDMMScores` (lines 227-238) over the list of lines of the file. -/
def parseDMMScores (lines : List String) : Except Unit (List (String × String)) :=
  parseGo [] lines

/-- The score field of the first `ATOM`/`HETATM` record of `lines` whose
residue identifier is `k`; `none` when no such record occurs.  Used as the
reference value for the first-record-wins property. -/
def firstScore : List String → String → Option String
  | [], _ => none
  | l :: ls, k =>
    if isRecordLine l then
      match lineResId l with
      | none => firstScore ls k
      | some r => if r = k then some (lineScore l) else firstScore ls k
    else firstScore ls k

/-! ## Run-private path layout (framework `_getTmpPath` / `_getExtraPath`) -/

/-- Modelled from the spec: the workflow framework's `_getTmpPath`, not part
of the plugin source — resolves a relative path inside the run-private `tmp`
subtree of the run directory. Paths are lists of components. -/
def tmpPath (run p : List String) : List String := run ++ ["tmp"] ++ p

/-- Modelled from the spec: the workflow framework's `_getExtraPath`, not
part of the plugin source — resolves a relative path inside the run-private
`extra` subtree of the run directory. -/
def extraPath (run p : List String) : List String := run ++ ["extra"] ++ p

/-- Line 133: `self._getTmpPath('predictions')`, the value of the `-o`
argument handed to the predictor. -/
def dmmOutputArgPath (run : List String) : List String := tmpPath run ["predictions"]

/-- Line 122: `self._getExtraPath('predictions')`, the destination into which
`DMMStep` relocates the predictor's `Predict_Result` output. -/
def dmmRelocationPath (run : List String) : List String := extraPath run ["predictions"]

/-- Line 140: `self._getTmpPath('predictions/DMM_score_w9.pdb')`, the score
file consumed by `createOutputStep`. -/
def outDMMFilePath (run : List String) : List String :=
  tmpPath run ["predictions", "DMM_score_w9.pdb"]

/-- Line 124: `os.path.join(Plugin._DMMBinary, 'Predict_Result', self.getVolumeName())`. -/
def predictResultDir (dmmBinaryPath : List String) (volName : String) : List String :=
  dmmBinaryPath ++ ["Predict_Result", volName]

/-! ## File-system model for `shutil.copytree` / `shutil.rmtree` -/

/-- A file-system snapshot: the set of existing directory paths and an
association list of file paths to contents. -/
structure FS where
  dirs : List (List String)
  files : List (List String × String)
deriving DecidableEq

/-- Membership of a path in a directory list. -/
def dirIn : List (List String) → List String → Bool
  | [], _ => false
  | d :: ds, p => if d = p then true else dirIn ds p

/-- Content of the file stored at `p`, if any. -/
def fileAt : List (List String × String) → List String → Option String
  | [], _ => none
  | (q, c) :: fs, p => if q = p then some c else fileAt fs p

/-- Existence of `p` as a directory or a file. -/
def existsPath (fs : FS) (p : List String) : Bool :=
  dirIn fs.dirs p || (fileAt fs.files p).isSome

/-- No file of the list lies at or below `p`. -/
def filesClear : List (List String × String) → List String → Bool
  | [], _ => true
  | f :: l, p => !(isLeadOf p f.1) && filesClear l p

/-- No file of `fs` lies at or below `p`. -/
def noFilesUnder (fs : FS) (p : List String) : Bool := filesClear fs.files p

/-- Directories of the `src` subtree re-rooted at `dst`. -/
def rebaseDirs (src dst : List String) : List (List String) → List (List String)
  | [] => []
  | d :: ds =>
    if isLeadOf src d then (dst ++ d.drop src.length) :: rebaseDirs src dst ds
    else rebaseDirs src dst ds

/-- Files of the `src` subtree re-rooted at `dst`. -/
def rebaseFiles (src dst : List String) :
    List (List String × String) → List (List String × String)
  | [] => []
  | f :: fl =>
    if isLeadOf src f.1 then (dst ++ f.1.drop src.length, f.2) :: rebaseFiles src dst fl
    else rebaseFiles src dst fl

/-- The two `OSError` shapes `shutil` raises in `DMMStep`: a missing source
tree and a pre-existing destination. -/
inductive OSErrorKind where
  | fileNotFound
  | fileExists
deriving DecidableEq

/-- Python `shutil.copytree(src, dst)`: fails with `FileNotFoundError` when `src`
does not exist, with `FileExistsError` when `dst` already exists; otherwise
duplicates the `src` subtree at `dst`. -/
def copytree (fs : FS) (src dst : List String) : Except OSErrorKind FS :=
  if dirIn fs.dirs src = false then .error .fileNotFound
  else if existsPath fs dst then .error .fileExists
  else .ok ⟨fs.dirs ++ rebaseDirs src dst fs.dirs, fs.files ++ rebaseFiles src dst fs.files⟩

/-- Python `shutil.rmtree(p)`: fails when `p` does not exist, otherwise removes the
whole subtree rooted at `p`. -/
def rmtree (fs : FS) (p : List String) : Except OSErrorKind FS :=
  if dirIn fs.dirs p = false then .error .fileNotFound
  else .ok ⟨fs.dirs.filter (fun d => !(isLeadOf p d)),
            fs.files.filter (fun f => !(isLeadOf p f.1))⟩

/-- How `DMMStep` can fail: `runJob` raising on a non-zero predictor exit,
or an `OSError` escaping from the `shutil` calls. -/
inductive StepError where
  | jobFailed
  | osError (k : OSErrorKind)
deriving DecidableEq

/-- Lines 120-126 of `DMMStep`: run the predictor job (`jobOk` records
whether it exits with code 0), then `shutil.copytree(DMMDir, outDir)`
followed by `shutil.rmtree(DMMDir)`. -/
def DMMStep (jobOk : Bool) (fs : FS) (dmmDir outDir : List String) : Except StepError FS :=
  if jobOk = false then .error .jobFailed
  else
    match copytree fs dmmDir outDir with
    | .error e => .error (.osError e)
    | .ok fs1 =>
      match rmtree fs1 dmmDir with
      | .error e => .error (.osError e)
      | .ok fs2 => .ok fs2

/-! ## Volume header correction (`convertInputStep`, lines 92-104) -/

/-- The two `Ccp4Header` field selectors used by `fixFile`. -/
inductive HeaderFieldKind where
  | START
  | ORIGIN
deriving DecidableEq

/-- One call performed by `convertInputStep`: either the
`ImageHandler().convert` format conversion or a `Ccp4Header.fixFile` header
fix with its origin-shift vector, sampling rate and field selector. -/
inductive VolOp (S R : Type) where
  | convert (src dst : String)
  | fixFile (inp outp : String) (shifts : S) (sr : R) (field : HeaderFieldKind)

/-- The step `convertInputStep` (lines 92-104) as the trace of its calls:
`ImageHandler().convert(inVolFile, mrcFile)`, then
`Ccp4Header.fixFile(mrcFile, mrcFile, shifts, sr, Ccp4Header.START)`, then
`Ccp4Header.fixFile(mrcFile, localVolFile, shifts, sr, Ccp4Header.ORIGIN)`. -/
def convertInputStep {S R : Type} (inVolFile : String) (shifts : S) (sr : R)
    (mrcFile localVolFile : String) : List (VolOp S R) :=
  [VolOp.convert inVolFile mrcFile,
   VolOp.fixFile mrcFile mrcFile shifts sr HeaderFieldKind.START,
   VolOp.fixFile mrcFile localVolFile shifts sr HeaderFieldKind.ORIGIN]

/-- The header-fix calls of a trace, each with its field selector,
origin-shift vector and sampling rate, in order. -/
def fixTrace {S R : Type} : List (VolOp S R) → List (HeaderFieldKind × S × R)
  | [] => []
  | VolOp.convert _ _ :: ops => fixTrace ops
  | VolOp.fixFile _ _ sh sr f :: ops => (f, sh, sr) :: fixTrace ops

/-! ## Resampling poll loop (`chimeraResample`, lines 256-264) -/

/-- The `while not os.path.exists(outFile): time.sleep(1)` loop of lines
262-263.  `appears k` tells whether the output file exists at the `k`-th
existence check; the result is the list of the sleep durations (in seconds)
performed before the loop exits, and `none` when `fuel` checks do not reach
an existing file (the source loop is unbounded: it would still be running). -/
def pollLoop (appears : Nat → Bool) (k : Nat) (fuel : Nat) : Option (List Nat) :=
  match fuel with
  | 0 => none
  | fuel' + 1 =>
    if appears k then some []
    else (pollLoop appears (k + 1) fuel').map (fun s => 1 :: s)

/-- The tail of `chimeraResample` after launching the external tool: poll for the output
file, then `return outFile` (line 264). -/
def chimeraResample (appears : Nat → Bool) (outFile : String) (fuel : Nat) :
    Option (List Nat × String) :=
  (pollLoop appears 0 fuel).map (fun s => (s, outFile))

/-! ## Attribute merge (`addScipionAttribute`, used on line 147) -/

/-- Modelled from the spec: `pwem.convert.atom_struct.addScipionAttribute`
is not part of the plugin source (only its call site on line 147 is).
Following the spec's words, the merged output binds each residue key of the
structural file that is present in the ScoreMap to the map's value,
unchanged; keys of the structural file absent from the map receive no entry,
and map keys absent from the structural file are dropped. -/
def addScipionAttribute (structKeys : List String) (scores : List (String × String)) :
    List (String × String) :=
  structKeys.filterMap (fun k => (dicGet scores k).map (fun v => (k, v)))

/-! ## Demonstration data used by the witnesses -/

/-- A column-correct `ATOM` record for residue `A:10` with score `0.50`
(chain identifier at offset 21, residue number at 22-25, score at 60-65). -/
def demoLine1 : String :=
  "ATOM" ++ String.mk (List.replicate 17 ' ') ++ "A" ++ "  10" ++
    String.mk (List.replicate 34 ' ') ++ "  0.50"

/-- A second `ATOM` record for the same residue `A:10`, score `0.90`. -/
def demoLine2 : String :=
  "ATOM" ++ String.mk (List.replicate 17 ' ') ++ "A" ++ "  10" ++
    String.mk (List.replicate 34 ' ') ++ "  0.90"

/-- A `HETATM` record for residue `A:11` with score `0.30`. -/
def demoLine3 : String :=
  "HETATM" ++ String.mk (List.replicate 15 ' ') ++ "A" ++ "  11" ++
    String.mk (List.replicate 34 ' ') ++ "  0.30"

/-- A small score file: a non-record line followed by the three records. -/
def demoLines : List String := ["REMARK fit", demoLine1, demoLine2, demoLine3]

/-- The dictionary `parseDMMScores` produces on `demoLines`. -/
def demoDic : List (String × String) := [("A:10", "0.50"), ("A:11", "0.30")]

/-- The predictor installation path of the demonstration run. -/
def demoBin : List String := ["opt", "DMM"]

/-- The private directory of the demonstration run. -/
def demoRun : List String := ["Runs", "000123"]

/-- A file system as `DMMStep` finds it after a successful predictor job:
the predictor wrote `opt/DMM/Predict_Result/vol1/DMM_score_w9.pdb`, and the
run directory holds empty `extra` and `tmp` subtrees. -/
def demoFS : FS :=
  ⟨[[], ["opt"], ["opt", "DMM"], ["opt", "DMM", "Predict_Result"],
    ["opt", "DMM", "Predict_Result", "vol1"], ["Runs"], ["Runs", "000123"],
    ["Runs", "000123", "extra"], ["Runs", "000123", "tmp"]],
   [(["opt", "DMM", "Predict_Result", "vol1", "DMM_score_w9.pdb"], "scores")]⟩

/-- The file system `DMMStep` leaves behind on `demoFS`: the score file now
lives under `Runs/000123/extra/predictions` and the `Predict_Result/vol1`
subtree is gone. -/
def demoFS2 : FS :=
  ⟨[[], ["opt"], ["opt", "DMM"], ["opt", "DMM", "Predict_Result"], ["Runs"],
    ["Runs", "000123"], ["Runs", "000123", "extra"], ["Runs", "000123", "tmp"],
    ["Runs", "000123", "extra", "predictions"]],
   [(["Runs", "000123", "extra", "predictions", "DMM_score_w9.pdb"], "scores")]⟩

/-! ## Helper lemmas -/

theorem isLeadOf_iff {α : Type} [DecidableEq α] (p q : List α) :
    isLeadOf p q = true ↔ ∃ r, q = p ++ r := by
  induction p generalizing q with
  | nil => simp [isLeadOf]
  | cons a as ih =>
    cases q with
    | nil => simp [isLeadOf]
    | cons b bs =>
      by_cases hab : a = b
      · subst hab
        simp [isLeadOf, ih]
      · simp only [isLeadOf, if_neg hab]
        constructor
        · intro h; exact absurd h (by simp)
        · rintro ⟨r, hr⟩
          exact absurd (List.cons.injEq .. ▸ hr).1 (by simpa using fun h => hab h.symm)

theorem isLeadOf_append {α : Type} [DecidableEq α] (p r : List α) :
    isLeadOf p (p ++ r) = true :=
  (isLeadOf_iff p (p ++ r)).2 ⟨r, rfl⟩

theorem isLeadOf_refl {α : Type} [DecidableEq α] (p : List α) :
    isLeadOf p p = true := by
  have := isLeadOf_append p []
  simpa using this

theorem isLeadOf_restore {α : Type} [DecidableEq α] (p q : List α)
    (h : isLeadOf p q = true) : p ++ q.drop p.length = q := by
  obtain ⟨r, hr⟩ := (isLeadOf_iff p q).1 h
  subst hr
  rw [List.drop_left]

theorem isLeadOf_append_cases {α : Type} [DecidableEq α] (a b r : List α)
    (h : isLeadOf a (b ++ r) = true) : isLeadOf a b = true ∨ isLeadOf b a = true := by
  induction a generalizing b with
  | nil => left; rfl
  | cons x xs ih =>
    cases b with
    | nil => right; rfl
    | cons y ys =>
      simp only [List.cons_append, isLeadOf] at h ⊢
      by_cases hxy : x = y
      · subst hxy
        simp only [if_pos rfl] at h ⊢
        exact ih ys h
      · rw [if_neg hxy] at h
        exact absurd h (by simp)

theorem isLeadOf_append_same {α : Type} [DecidableEq α] (l a b : List α) :
    isLeadOf (l ++ a) (l ++ b) = isLeadOf a b := by
  induction l with
  | nil => rfl
  | cons x xs ih => simpa [isLeadOf] using ih

theorem dicGet_append_of_some (d d2 : List (String × String)) (k : String) (v : String)
    (h : dicGet d k = some v) : dicGet (d ++ d2) k = some v := by
  induction d with
  | nil => simp [dicGet] at h
  | cons e d' ih =>
    obtain ⟨a, w⟩ := e
    by_cases hak : a = k
    · subst hak
      simpa [dicGet] using by simpa [dicGet] using h
    · simp only [dicGet, if_neg hak] at h ⊢
      exact ih h

theorem dicGet_append_of_none (d d2 : List (String × String)) (k : String)
    (h : dicGet d k = none) : dicGet (d ++ d2) k = dicGet d2 k := by
  induction d with
  | nil => rfl
  | cons e d' ih =>
    obtain ⟨a, w⟩ := e
    by_cases hak : a = k
    · subst hak; simp [dicGet] at h
    · simp only [dicGet, if_neg hak] at h ⊢
      exact ih h

/-- Bindings present in the accumulator survive the rest of the parsing
loop untouched: no residue key is ever overwritten. -/
theorem parseGo_keeps (lines : List String) : ∀ dic m (k v : String),
    parseGo dic lines = Except.ok m → dicGet dic k = some v → dicGet m k = some v := by
  induction lines with
  | nil =>
    intro dic m k v h hv
    simp only [parseGo] at h
    cases h
    exact hv
  | cons l ls ih =>
    intro dic m k v h hv
    by_cases hrec : isRecordLine l
    · cases hres : lineResId l with
      | none => simp [parseGo, parseLine, hrec, hres] at h
      | some r =>
        by_cases hmem : dicHas dic r
        · have h' : parseGo dic ls = Except.ok m := by
            simpa [parseGo, parseLine, hrec, hres, hmem] using h
          exact ih dic m k v h' hv
        · have h' : parseGo (dic ++ [(r, lineScore l)]) ls = Except.ok m := by
            simpa [parseGo, parseLine, hrec, hres, hmem] using h
          exact ih _ m k v h' (dicGet_append_of_some dic _ k v hv)
    · have h' : parseGo dic ls = Except.ok m := by
        simpa [parseGo, parseLine, hrec] using h
      exact ih dic m k v h' hv

/-- A key absent from the accumulator ends up bound to the score of the
first matching record of the remaining lines. -/
theorem parseGo_new (lines : List String) : ∀ dic m (k : String),
    parseGo dic lines = Except.ok m → dicGet dic k = none →
    dicGet m k = firstScore lines k := by
  induction lines with
  | nil =>
    intro dic m k h hk
    simp only [parseGo] at h
    cases h
    simpa [firstScore] using hk
  | cons l ls ih =>
    intro dic m k h hk
    by_cases hrec : isRecordLine l
    · cases hres : lineResId l with
      | none => simp [parseGo, parseLine, hrec, hres] at h
      | some r =>
        by_cases hmem : dicHas dic r
        · have h' : parseGo dic ls = Except.ok m := by
            simpa [parseGo, parseLine, hrec, hres, hmem] using h
          have hrk : r ≠ k := by
            intro he
            subst he
            rw [dicHas, hk] at hmem
            simp at hmem
          have hfs : firstScore (l :: ls) k = firstScore ls k := by
            simp [firstScore, hrec, hres, hrk]
          rw [hfs]
          exact ih dic m k h' hk
        · have h' : parseGo (dic ++ [(r, lineScore l)]) ls = Except.ok m := by
            simpa [parseGo, parseLine, hrec, hres, hmem] using h
          by_cases hrk : r = k
          · subst hrk
            have hfs : firstScore (l :: ls) r = some (lineScore l) := by
              simp [firstScore, hrec, hres]
            rw [hfs]
            have hbound : dicGet (dic ++ [(r, lineScore l)]) r = some (lineScore l) := by
              rw [dicGet_append_of_none dic _ r hk]
              simp [dicGet]
            exact parseGo_keeps ls _ m r (lineScore l) h' hbound
          · have hfs : firstScore (l :: ls) k = firstScore ls k := by
              simp [firstScore, hrec, hres, hrk]
            rw [hfs]
            have hk2 : dicGet (dic ++ [(r, lineScore l)]) k = none := by
              rw [dicGet_append_of_none dic _ k hk]
              simp [dicGet, hrk]
            exact ih _ m k h' hk2
    · have h' : parseGo dic ls = Except.ok m := by
        simpa [parseGo, parseLine, hrec] using h
      have hfs : firstScore (l :: ls) k = firstScore ls k := by
        simp [firstScore, hrec]
      rw [hfs]
      exact ih dic m k h' hk

/-! ## Claim C1 — launcher detection in `DMMStep` -/

/-- C1 counterexample: on an argument string that DOES contain the launcher
name `dmm_full_multithreads.sh`, `DMMStep` leaves the arguments unchanged
(no `-p <binary>` is prepended), and on one that does NOT contain it the
binary path IS prefixed — exactly the opposite of the claim. -/
theorem DMMStepArgs_claim_false :
    pyIn launcherScript "run dmm_full_multithreads.sh" = true
    ∧ DMMStepArgs "/opt/DMM" "run dmm_full_multithreads.sh" = "run dmm_full_multithreads.sh"
    ∧ DMMStepArgs "/opt/DMM" "run dmm_full_multithreads.sh"
        ≠ "-p " ++ "/opt/DMM" ++ "run dmm_full_multithreads.sh"
    ∧ pyIn launcherScript " -m map.mrc" = false
    ∧ DMMStepArgs "/opt/DMM" " -m map.mrc" = "-p /opt/DMM -m map.mrc" :=
  ⟨by decide, by decide, by decide, by decide, by decide⟩

/-- C1 (amended): for every argument string passed to the predictor job
runner, the `-p <binary>` form is applied exactly when the launcher script
name `dmm_full_multithreads.sh` is NOT detected in the argument string;
when it is detected, the arguments are used unchanged. -/
theorem DMMStepArgs_detection (dmmBinary args : String) :
    (pyIn launcherScript args = true → DMMStepArgs dmmBinary args = args)
    ∧ (pyIn launcherScript args = false →
        DMMStepArgs dmmBinary args = "-p " ++ dmmBinary ++ args) := by
  constructor <;> intro h <;> simp [DMMStepArgs, h]

/-- C1 witness: both arms of the detection theorem at concrete inputs. -/
theorem DMMStepArgs_detection_witness :
    DMMStepArgs "/opt/DMM" "x dmm_full_multithreads.sh" = "x dmm_full_multithreads.sh"
    ∧ DMMStepArgs "/opt/DMM" " -m v.mrc" = "-p " ++ "/opt/DMM" ++ " -m v.mrc" :=
  ⟨(DMMStepArgs_detection "/opt/DMM" "x dmm_full_multithreads.sh").1 (by decide),
   (DMMStepArgs_detection "/opt/DMM" " -m v.mrc").2 (by decide)⟩

/-! ## Claim C2 — first-record-wins score extraction -/

/-- C2: for every score file on which `parseDMMScores` succeeds and every
residue key, the resulting ScoreMap binds the key to the score field of the
first `ATOM`/`HETATM` record with that (whitespace-trimmed chain, residue
number) key in file order, regardless of how many records carry the key;
a bound key is never overwritten by a later record. -/
theorem parseDMMScores_first_record_wins (lines : List String)
    (m : List (String × String)) (h : parseDMMScores lines = Except.ok m) (k : String) :
    dicGet m k = firstScore lines k :=
  parseGo_new lines [] m k h rfl

/-- C2 witness: on the §8 scenario file (two `A:10` records with scores
0.50 then 0.90, one `A:11` record with 0.30) the map holds the first score. -/
theorem parseDMMScores_first_record_wins_witness :
    parseDMMScores demoLines = Except.ok demoDic
    ∧ dicGet demoDic "A:10" = firstScore demoLines "A:10"
    ∧ dicGet demoDic "A:10" = some "0.50"
    ∧ dicGet demoDic "A:11" = some "0.30" :=
  ⟨rfl, parseDMMScores_first_record_wins demoLines demoDic rfl "A:10", by decide, by decide⟩

/-! ## Claim C3 — tolerance of non-record lines -/

/-- C3 counterexample: the malformed line "ATOM" begins with a record token
but is shorter than 22 characters, so `line[21]` raises an IndexError
(modelled as `.error`); parsing does fail on such a malformed line,
contrary to the claim that it never fails. -/
theorem parseDMMScores_short_record_fails :
    parseDMMScores ["ATOM"] = Except.error () := rfl

/-- C3 (amended): only lines beginning with 'ATOM' or 'HETATM' are
considered; every other line — malformed or not — is silently skipped,
leaving the accumulated dictionary unchanged and raising no error.  A
considered line of fewer than 22 characters, however, raises an IndexError,
so parsing can fail on a malformed line that begins with a record token. -/
theorem parseLine_skip_or_fail (dic : List (String × String)) (line : String) :
    (isRecordLine line = false → parseLine dic line = Except.ok dic)
    ∧ (isRecordLine line = true → line.data.length < 22 →
        parseLine dic line = Except.error ()) := by
  constructor
  · intro h
    simp [parseLine, h]
  · intro h hlen
    have hc : charAt line 21 = none := by
      rw [charAt, List.get?_eq_none]
      omega
    simp [parseLine, h, lineResId, hc]

/-- C3 witness: a non-record line is skipped with the dictionary unchanged;
the short record line "ATOM" raises. -/
theorem parseLine_skip_or_fail_witness :
    parseLine [("A:10", "0.50")] "REMARK fit" = Except.ok [("A:10", "0.50")]
    ∧ parseLine [] "ATOM" = Except.error () :=
  ⟨(parseLine_skip_or_fail [("A:10", "0.50")] "REMARK fit").1 (by decide),
   (parseLine_skip_or_fail [] "ATOM").2 (by decide) (by decide)⟩

/-! ## Claim C5 — `createOutputStep` reads from the tmp `predictions` dir -/

/-- C5: the score file consumed by `createOutputStep`
(`tmp/predictions/DMM_score_w9.pdb`) lives inside the very directory passed
to the predictor as the `-o` argument (`tmp/predictions`), and it is not
under — nor is its directory equal to — the extra `predictions` directory
into which `DMMStep` relocates the `Predict_Result` output, so the relocated
copy is never the one read. -/
theorem createOutputStep_reads_tmp (run : List String) :
    outDMMFilePath run = dmmOutputArgPath run ++ ["DMM_score_w9.pdb"]
    ∧ isLeadOf (dmmRelocationPath run) (outDMMFilePath run) = false
    ∧ dmmRelocationPath run ≠ dmmOutputArgPath run := by
  refine ⟨by simp [outDMMFilePath, dmmOutputArgPath, tmpPath], ?_, ?_⟩
  · rw [dmmRelocationPath, outDMMFilePath, extraPath, tmpPath,
      List.append_assoc, List.append_assoc, isLeadOf_append_same]
    decide
  · intro h
    rw [dmmRelocationPath, dmmOutputArgPath, extraPath, tmpPath,
      List.append_assoc, List.append_assoc] at h
    exact absurd (List.append_cancel_left h) (by decide)

/-! ## Claim C6 — two ordered header fixes in `convertInputStep` -/

/-- C6: `convertInputStep` performs header correction as exactly two
sequential fixes in a fixed order — the start-index fix
(`Ccp4Header.START`) first, then the origin fix (`Ccp4Header.ORIGIN`) —
both applied with the same caller-supplied origin shift vector and the same
sampling rate. -/
theorem convertInputStep_two_fixes {S R : Type} (inVolFile : String) (shifts : S) (sr : R)
    (mrcFile localVolFile : String) :
    fixTrace (convertInputStep inVolFile shifts sr mrcFile localVolFile)
      = [(HeaderFieldKind.START, shifts, sr), (HeaderFieldKind.ORIGIN, shifts, sr)] := rfl

/-! ## Claim C9 — shape of the predictor argument string -/

/-- C9 counterexample: at concrete inputs the argument string built by
`getDMMArgs` is not equal to the exact form stated in the claim — the built
string carries one leading space before `-m`. -/
theorem getDMMArgs_claim_false :
    getDMMArgs "v.mrc" "s.fasta" "" "0.0" "outdir"
      ≠ specArgsForm "v.mrc" "s.fasta" "" "0.0" "outdir"
    ∧ getDMMArgs "v.mrc" "s.fasta" "" "0.0" "outdir"
      = " -m v.mrc -f s.fasta -A  -c 0.0 -o outdir -t 10 -T 10" :=
  ⟨by decide, by decide⟩

/-- C9 (amended): for every run, the predictor argument string is exactly
one leading space followed by
`-m <map_path> -f <sequence_path> -A <aux_model_path|empty> -c <contour> -o <output_dir> -t 10 -T 10`,
the `-A` value is the empty string when no auxiliary structural model is
supplied, and the subprocess is launched with the predictor installation
directory as its working directory. -/
theorem getDMMArgs_form (m f c o condaCmd protocolCmd dmmBinary : String) (af2 : Option String) :
    getDMMArgs m f (alphafoldPathOf af2) c o
      = " " ++ specArgsForm m f (alphafoldPathOf af2) c o
    ∧ alphafoldPathOf none = ""
    ∧ (DMMStepJob condaCmd protocolCmd dmmBinary
        (getDMMArgs m f (alphafoldPathOf af2) c o)).cwd = dmmBinary := by
  refine ⟨?_, rfl, rfl⟩
  have h1 : (" " ++ "-m " : String) = " -m " := rfl
  rw [getDMMArgs, specArgsForm]
  simp only [← String.append_assoc, h1]

/-- C9 witness: the amended form at concrete inputs, including the
empty `-A` value and the working directory. -/
theorem getDMMArgs_form_witness :
    getDMMArgs "v.mrc" "s.fasta" (alphafoldPathOf none) "0.0" "outdir"
      = " " ++ specArgsForm "v.mrc" "s.fasta" (alphafoldPathOf none) "0.0" "outdir"
    ∧ alphafoldPathOf none = ""
    ∧ (DMMStepJob "conda activate" "dmm-env" "/opt/DMM"
        (getDMMArgs "v.mrc" "s.fasta" (alphafoldPathOf none) "0.0" "outdir")).cwd = "/opt/DMM" :=
  getDMMArgs_form "v.mrc" "s.fasta" "0.0" "outdir" "conda activate" "dmm-env" "/opt/DMM" none

/-! ## File-system lemmas for `DMMStep` -/

theorem dirIn_append (l1 l2 : List (List String)) (p : List String) :
    dirIn (l1 ++ l2) p = (dirIn l1 p || dirIn l2 p) := by
  induction l1 with
  | nil => rfl
  | cons d ds ih =>
    by_cases hdp : d = p
    · simp [dirIn, hdp]
    · simp [dirIn, hdp, ih]

theorem dirIn_filter_lead (ds : List (List String)) (p q : List String) :
    dirIn (ds.filter (fun d => !(isLeadOf p d))) q = (!(isLeadOf p q) && dirIn ds q) := by
  induction ds with
  | nil => simp [dirIn]
  | cons d ds' ih =>
    by_cases hdq : d = q
    · subst hdq
      by_cases hl : isLeadOf p d = true
      · simp [List.filter_cons, hl, ih, dirIn]
      · simp [List.filter_cons, hl, dirIn, Bool.not_eq_true _ ▸ hl]
    · by_cases hl : isLeadOf p d = true
      · simp [List.filter_cons, hl, ih, dirIn, hdq]
      · simp [List.filter_cons, hl, ih, dirIn, hdq]

theorem dirIn_rebase_none (ds : List (List String)) (src dst q : List String)
    (hq : isLeadOf dst q = false) : dirIn (rebaseDirs src dst ds) q = false := by
  induction ds with
  | nil => rfl
  | cons d ds' ih =>
    by_cases hsd : isLeadOf src d = true
    · have hne : dst ++ d.drop src.length ≠ q := by
        intro hcontra
        rw [← hcontra, isLeadOf_append] at hq
        exact absurd hq (by simp)
      simp [rebaseDirs, hsd, dirIn, hne, ih]
    · simp [rebaseDirs, hsd, ih]

theorem fileAt_filter_lead (l : List (List String × String)) (p q : List String) :
    fileAt (l.filter (fun f => !(isLeadOf p f.1))) q
      = if isLeadOf p q = true then none else fileAt l q := by
  induction l with
  | nil => simp [fileAt]
  | cons e l' ih =>
    obtain ⟨a, c⟩ := e
    by_cases haq : a = q
    · subst haq
      by_cases hl : isLeadOf p a = true
      · simp [List.filter_cons, hl, ih, fileAt]
      · simp [List.filter_cons, hl, fileAt]
    · by_cases hl : isLeadOf p a = true
      · simp [List.filter_cons, hl, ih, fileAt, haq]
      · simp [List.filter_cons, hl, ih, fileAt, haq]

theorem fileAt_append_some (l1 l2 : List (List String × String)) (p : List String) (c : String)
    (h : fileAt l1 p = some c) : fileAt (l1 ++ l2) p = some c := by
  induction l1 with
  | nil => simp [fileAt] at h
  | cons e l' ih =>
    obtain ⟨a, w⟩ := e
    by_cases hap : a = p
    · subst hap
      simp [fileAt] at h ⊢
      exact h
    · simp only [List.cons_append, fileAt, if_neg hap] at h ⊢
      exact ih h

theorem fileAt_append_none (l1 l2 : List (List String × String)) (p : List String)
    (h : fileAt l1 p = none) : fileAt (l1 ++ l2) p = fileAt l2 p := by
  induction l1 with
  | nil => rfl
  | cons e l' ih =>
    obtain ⟨a, w⟩ := e
    by_cases hap : a = p
    · subst hap; simp [fileAt] at h
    · simp only [List.cons_append, fileAt, if_neg hap] at h ⊢
      exact ih h

theorem fileAt_rebase (l : List (List String × String)) (src dst rest : List String) :
    fileAt (rebaseFiles src dst l) (dst ++ rest) = fileAt l (src ++ rest) := by
  induction l with
  | nil => rfl
  | cons e l' ih =>
    obtain ⟨a, c⟩ := e
    by_cases hsa : isLeadOf src a = true
    · have ha : src ++ a.drop src.length = a := isLeadOf_restore src a hsa
      by_cases hkey : a = src ++ rest
      · have hdrop : a.drop src.length = rest := by
          rw [hkey, List.drop_left]
        simp [rebaseFiles, hsa, fileAt, hdrop, hkey, isLeadOf_append]
      · have hdropneq : dst ++ a.drop src.length ≠ dst ++ rest := by
          intro hcontra
          have hd2 : a.drop src.length = rest := List.append_cancel_left hcontra
          exact hkey (by rw [← hd2]; exact ha.symm)
        simp [rebaseFiles, hsa, fileAt, hdropneq, hkey, ih]
    · have hne : a ≠ src ++ rest := by
        intro hcontra
        rw [hcontra, isLeadOf_append] at hsa
        exact hsa rfl
      simp [rebaseFiles, hsa, fileAt, hne, ih]

theorem fileAt_rebase_none (l : List (List String × String)) (src dst q : List String)
    (hq : isLeadOf dst q = false) : fileAt (rebaseFiles src dst l) q = none := by
  induction l with
  | nil => rfl
  | cons e l' ih =>
    obtain ⟨a, c⟩ := e
    by_cases hsa : isLeadOf src a = true
    · have hne : dst ++ a.drop src.length ≠ q := by
        intro hcontra
        rw [← hcontra, isLeadOf_append] at hq
        exact absurd hq (by simp)
      simp [rebaseFiles, hsa, fileAt, hne, ih]
    · simp [rebaseFiles, hsa, ih]

theorem fileAt_of_clear (l : List (List String × String)) (p rest : List String)
    (h : filesClear l p = true) : fileAt l (p ++ rest) = none := by
  induction l with
  | nil => rfl
  | cons e l' ih =>
    obtain ⟨a, c⟩ := e
    simp only [filesClear, Bool.and_eq_true, Bool.not_eq_true'] at h
    have hne : a ≠ p ++ rest := by
      intro hcontra
      rw [hcontra, isLeadOf_append] at h
      exact absurd h.1 (by simp)
    simp only [fileAt, if_neg hne]
    exact ih h.2

/-- Success of the copy-then-remove relocation of `DMMStep`, decomposed:
source-tree existence, destination freshness, and the exact shape of the
resulting file system. -/
theorem DMMStep_ok_shape (jobOk : Bool) (fs fs2 : FS) (dmmDir outDir : List String)
    (h : DMMStep jobOk fs dmmDir outDir = Except.ok fs2) :
    dirIn fs.dirs dmmDir = true
    ∧ existsPath fs outDir = false
    ∧ fs2 = ⟨fs.dirs.filter (fun d => !(isLeadOf dmmDir d))
               ++ (rebaseDirs dmmDir outDir fs.dirs).filter (fun d => !(isLeadOf dmmDir d)),
             fs.files.filter (fun f => !(isLeadOf dmmDir f.1))
               ++ (rebaseFiles dmmDir outDir fs.files).filter (fun f => !(isLeadOf dmmDir f.1))⟩ := by
  cases jobOk with
  | false => simp [DMMStep] at h
  | true =>
    cases h1 : dirIn fs.dirs dmmDir with
    | false => simp [DMMStep, copytree, h1] at h
    | true =>
      cases h2 : existsPath fs outDir with
      | true => simp [DMMStep, copytree, h1, h2] at h
      | false =>
        cases h3 : dirIn (fs.dirs ++ rebaseDirs dmmDir outDir fs.dirs) dmmDir with
        | false => simp [DMMStep, copytree, rmtree, h1, h2, h3] at h
        | true =>
          simp [DMMStep, copytree, rmtree, h1, h2, h3] at h
          exact ⟨rfl, rfl, h.symm⟩

/-- The relocation performed at the end of `DMMStep`: the predictor output
directory is gone afterwards, its files reappear under the run-private
destination, and everything outside the two subtrees is untouched. -/
theorem DMMStep_relocation_spec (jobOk : Bool) (fs fs2 : FS) (dmmDir outDir : List String)
    (h : DMMStep jobOk fs dmmDir outDir = Except.ok fs2)
    (hd1 : isLeadOf dmmDir outDir = false)
    (hd2 : isLeadOf outDir dmmDir = false)
    (hclean : noFilesUnder fs outDir = true) :
    dirIn fs2.dirs dmmDir = false
    ∧ (∀ q, isLeadOf dmmDir q = false → isLeadOf outDir q = false →
        dirIn fs2.dirs q = dirIn fs.dirs q)
    ∧ (∀ rest c, fileAt fs.files (dmmDir ++ rest) = some c →
        fileAt fs2.files (outDir ++ rest) = some c)
    ∧ (∀ p, isLeadOf dmmDir p = false → isLeadOf outDir p = false →
        fileAt fs2.files p = fileAt fs.files p) := by
  obtain ⟨hsrc, hdst, hshape⟩ := DMMStep_ok_shape jobOk fs fs2 dmmDir outDir h
  subst hshape
  refine ⟨?_, ?_, ?_, ?_⟩
  · rw [dirIn_append, dirIn_filter_lead, dirIn_filter_lead, isLeadOf_refl]
    rfl
  · intro q hq1 hq2
    rw [dirIn_append, dirIn_filter_lead, dirIn_filter_lead, hq1,
      dirIn_rebase_none _ _ _ _ hq2]
    simp
  · intro rest c hf
    have hout : isLeadOf dmmDir (outDir ++ rest) = false := by
      by_contra hc
      rcases isLeadOf_append_cases dmmDir outDir rest (by
        cases hx : isLeadOf dmmDir (outDir ++ rest)
        · exact absurd hx hc
        · rfl) with hcase | hcase
      · rw [hcase] at hd1; cases hd1
      · rw [hcase] at hd2; cases hd2
    have hmiss : fileAt fs.files (outDir ++ rest) = none :=
      fileAt_of_clear fs.files outDir rest hclean
    have e1 : fileAt (fs.files.filter (fun f => !(isLeadOf dmmDir f.1)))
        (outDir ++ rest) = none := by
      rw [fileAt_filter_lead, if_neg (by simp [hout]), hmiss]
    rw [fileAt_append_none _ _ _ e1, fileAt_filter_lead, if_neg (by simp [hout]),
      fileAt_rebase]
    exact hf
  · intro p hp1 hp2
    have e1 : fileAt (fs.files.filter (fun f => !(isLeadOf dmmDir f.1))) p
        = fileAt fs.files p := by
      rw [fileAt_filter_lead, if_neg (by simp [hp1])]
    cases hfp : fileAt fs.files p with
    | some c =>
      exact fileAt_append_some _ _ _ _ (by rw [e1, hfp])
    | none =>
      rw [fileAt_append_none _ _ _ (by rw [e1, hfp]), fileAt_filter_lead,
        if_neg (by simp [hp1])]
      exact fileAt_rebase_none _ _ _ _ hp2

/-! ## Claim C4 — `DMMStep` relocates the predictor output -/

/-- C4: after a successful `DMMStep`, the predictor output directory
`<install_dir>/Predict_Result/<volume_base_name>` no longer exists, every
file it contained now lives at the corresponding place under the
run-private extra `predictions` path, and everything outside those two
subtrees — in particular the rest of the shared installation directory —
is exactly as it was found. -/
theorem DMMStep_relocates_output (jobOk : Bool) (fs fs2 : FS)
    (bin run : List String) (vol : String)
    (h : DMMStep jobOk fs (predictResultDir bin vol) (dmmRelocationPath run) = Except.ok fs2)
    (hd1 : isLeadOf (predictResultDir bin vol) (dmmRelocationPath run) = false)
    (hd2 : isLeadOf (dmmRelocationPath run) (predictResultDir bin vol) = false)
    (hclean : noFilesUnder fs (dmmRelocationPath run) = true) :
    dirIn fs2.dirs (predictResultDir bin vol) = false
    ∧ (∀ q, isLeadOf (predictResultDir bin vol) q = false →
        isLeadOf (dmmRelocationPath run) q = false →
        dirIn fs2.dirs q = dirIn fs.dirs q)
    ∧ (∀ rest c, fileAt fs.files (predictResultDir bin vol ++ rest) = some c →
        fileAt fs2.files (dmmRelocationPath run ++ rest) = some c)
    ∧ (∀ p, isLeadOf (predictResultDir bin vol) p = false →
        isLeadOf (dmmRelocationPath run) p = false →
        fileAt fs2.files p = fileAt fs.files p) :=
  DMMStep_relocation_spec jobOk fs fs2 _ _ h hd1 hd2 hclean

/-- C4 witness: the demonstration run, where the single score file moves
from `opt/DMM/Predict_Result/vol1` to `Runs/000123/extra/predictions` and
the source directory disappears. -/
theorem DMMStep_relocates_output_witness :
    DMMStep true demoFS (predictResultDir demoBin "vol1") (dmmRelocationPath demoRun)
      = Except.ok demoFS2
    ∧ dirIn demoFS2.dirs (predictResultDir demoBin "vol1") = false
    ∧ fileAt demoFS2.files (dmmRelocationPath demoRun ++ ["DMM_score_w9.pdb"])
      = some "scores" := by
  have h : DMMStep true demoFS (predictResultDir demoBin "vol1") (dmmRelocationPath demoRun)
      = Except.ok demoFS2 := rfl
  have spec := DMMStep_relocates_output true demoFS demoFS2 demoBin demoRun "vol1" h
    (by decide) (by decide) (by decide)
  exact ⟨h, spec.1, spec.2.2.1 ["DMM_score_w9.pdb"] "scores" rfl⟩

/-! ## Claim C7 — a missing output directory is a distinct fatal error -/

/-- C7: if the expected predictor output directory
`<install_dir>/Predict_Result/<volume_base_name>` is absent although the
predictor job reported success, `DMMStep` fails with a `FileNotFoundError`
from `shutil.copytree` — an error distinct from the non-zero-exit job
failure — and never silently ignores the absence. -/
theorem DMMStep_missing_output (fs : FS) (bin run : List String) (vol : String)
    (h : dirIn fs.dirs (predictResultDir bin vol) = false) :
    DMMStep true fs (predictResultDir bin vol) (dmmRelocationPath run)
      = Except.error (StepError.osError OSErrorKind.fileNotFound)
    ∧ StepError.osError OSErrorKind.fileNotFound ≠ StepError.jobFailed := by
  constructor
  · simp [DMMStep, copytree, h]
  · simp

/-- C7 witness: an empty file system has no `Predict_Result/vol1`, and
`DMMStep` reports the distinct missing-output error there. -/
theorem DMMStep_missing_output_witness :
    DMMStep true ⟨[], []⟩ (predictResultDir demoBin "vol1") (dmmRelocationPath demoRun)
      = Except.error (StepError.osError OSErrorKind.fileNotFound)
    ∧ StepError.osError OSErrorKind.fileNotFound ≠ StepError.jobFailed :=
  DMMStep_missing_output ⟨[], []⟩ demoBin demoRun "vol1" rfl

/-! ## Claim C8 — attribute merge alignment -/

/-- C8: a pair `(k, v)` appears in the merged attribute rows exactly when
`k` is a residue key of the structural file that the ScoreMap binds to `v`;
hence every key present in both carries the ScoreMap's value unchanged, and
a structural-file key absent from the ScoreMap gets no attribute entry at
all (not a zero or empty string). -/
theorem addScipionAttribute_merge (structKeys : List String)
    (scores : List (String × String)) (k v : String) :
    (k, v) ∈ addScipionAttribute structKeys scores
      ↔ (k ∈ structKeys ∧ dicGet scores k = some v) := by
  rw [addScipionAttribute, List.mem_filterMap]
  constructor
  · rintro ⟨a, ha, hfa⟩
    rw [Option.map_eq_some'] at hfa
    obtain ⟨w, hw, hpair⟩ := hfa
    obtain ⟨h1, h2⟩ := Prod.mk.injEq .. ▸ hpair
    subst h1
    subst h2
    exact ⟨ha, hw⟩
  · rintro ⟨hk, hv⟩
    exact ⟨k, hk, by rw [hv]; rfl⟩

/-! ## Claim C10 — the unbounded one-second poll loop -/

theorem pollLoop_spec (appears : Nat → Bool) : ∀ fuel k s,
    pollLoop appears k fuel = some s →
    s = List.replicate s.length 1
    ∧ appears (k + s.length) = true
    ∧ ∀ j, j < s.length → appears (k + j) = false := by
  intro fuel
  induction fuel with
  | zero =>
    intro k s h
    simp [pollLoop] at h
  | succ f ih =>
    intro k s h
    rw [pollLoop] at h
    cases hb : appears k with
    | true =>
      rw [hb] at h
      simp at h
      subst h
      exact ⟨rfl, by simpa using hb, fun j hj => absurd hj (by simp)⟩
    | false =>
      rw [hb] at h
      simp only [Bool.false_eq_true, if_false] at h
      rw [Option.map_eq_some'] at h
      obtain ⟨s', hrec, hcons⟩ := h
      subst hcons
      obtain ⟨hrep, happ, hbef⟩ := ih (k + 1) s' hrec
      refine ⟨?_, ?_, ?_⟩
      · rw [List.length_cons, List.replicate_succ, ← hrep]
      · have hk : k + (s'.length + 1) = (k + 1) + s'.length := by omega
        rw [List.length_cons, hk]
        exact happ
      · intro j hj
        cases j with
        | zero => simpa using hb
        | succ j' =>
          have hk : k + (j' + 1) = (k + 1) + j' := by omega
          rw [hk]
          exact hbef j' (by simpa [List.length_cons] using hj)

theorem pollLoop_reaches (appears : Nat → Bool) : ∀ fuel k i,
    appears (k + i) = true → i < fuel → (pollLoop appears k fuel).isSome = true := by
  intro fuel
  induction fuel with
  | zero =>
    intro k i h hi
    exact absurd hi (by omega)
  | succ f ih =>
    intro k i h hi
    rw [pollLoop]
    cases hb : appears k with
    | true => simp
    | false =>
      have hi0 : i ≠ 0 := by
        intro h0
        subst h0
        rw [Nat.add_zero] at h
        rw [h] at hb
        cases hb
      obtain ⟨i', rfl⟩ : ∃ i', i = i' + 1 := ⟨i - 1, by omega⟩
      have h' : appears ((k + 1) + i') = true := by
        have hk : (k + 1) + i' = k + (i' + 1) := by omega
        rw [hk]
        exact h
      have hrec := ih (k + 1) i' h' (by omega)
      simp only [Bool.false_eq_true, if_false]
      cases hp : pollLoop appears (k + 1) f with
      | none => rw [hp] at hrec; cases hrec
      | some s => simp [hp]

/-- C10: `chimeraResample` polls for the output file with a fixed
one-second sleep between consecutive existence checks and returns the
output file path only once the file exists: some number of polling rounds
succeeds exactly when the file eventually appears (so if it never appears,
no amount of rounds terminates — the loop runs forever), and on success the
returned path is the expected output file, every sleep performed was one
second, and the loop stopped at the first check at which the file existed. -/
theorem chimeraResample_poll (appears : Nat → Bool) (outFile : String) :
    ((∃ fuel, (chimeraResample appears outFile fuel).isSome = true)
      ↔ ∃ n, appears n = true)
    ∧ (∀ fuel s f, chimeraResample appears outFile fuel = some (s, f) →
        f = outFile ∧ s = List.replicate s.length 1
        ∧ appears s.length = true ∧ ∀ j, j < s.length → appears j = false) := by
  constructor
  · constructor
    · rintro ⟨fuel, hf⟩
      rw [chimeraResample] at hf
      cases hrec : pollLoop appears 0 fuel with
      | none => rw [hrec] at hf; cases hf
      | some s =>
        obtain ⟨_, happ, _⟩ := pollLoop_spec appears fuel 0 s hrec
        exact ⟨s.length, by simpa using happ⟩
    · rintro ⟨n, hn⟩
      refine ⟨n + 1, ?_⟩
      have hsome := pollLoop_reaches appears (n + 1) 0 n (by simpa using hn) (by omega)
      rw [chimeraResample]
      cases hrec : pollLoop appears 0 (n + 1) with
      | none => rw [hrec] at hsome; cases hsome
      | some s => simp [hrec]
  · intro fuel s f h
    rw [chimeraResample] at h
    cases hrec : pollLoop appears 0 fuel with
    | none => rw [hrec] at h; cases h
    | some s' =>
      rw [hrec] at h
      simp only [Option.map_some'] at h
      obtain ⟨hs, hf⟩ := Prod.mk.injEq .. ▸ Option.some.injEq .. ▸ h
      subst hs
      subst hf
      obtain ⟨hrep, happ, hbef⟩ := pollLoop_spec appears fuel 0 s' hrec
      exact ⟨rfl, hrep, by simpa using happ, fun j hj => by simpa using hbef j hj⟩

/-- C10 witness: a file that appears at the third check is reached after
two one-second sleeps, and the returned path is the requested output file. -/
theorem chimeraResample_poll_witness :
    chimeraResample (fun n => n == 2) "out.mrc" 5 = some ([1, 1], "out.mrc")
    ∧ "out.mrc" = "out.mrc"
    ∧ ([1, 1] : List Nat) = List.replicate ([1, 1] : List Nat).length 1
    ∧ (fun n : Nat => n == 2) ([1, 1] : List Nat).length = true := by
  have happ := (chimeraResample_poll (fun n => n == 2) "out.mrc").2 5 [1, 1] "out.mrc" rfl
  exact ⟨rfl, happ.1, happ.2.1, happ.2.2.1⟩

end DMMProt
